import Mathlib

/-!
Verification development for the zeek-duckdb extension: a shallow embedding of
the Zeek log reader (header parsing, separator escape decoding, type mapping,
row/list decoding and the scan state machine) together with theorems checking
the natural-language specification against it.

Strings from the C++ code (std::string, byte oriented ASCII text) are modelled
as `List Char`; characters as `Char` (all data handled by the reader is ASCII,
where byte and character coincide).  Fallible C++ code (thrown exceptions)
is modelled with `Except`/`Option`.
-/

namespace ZeekDuck

/-! ## Character classes used by the C standard library parsing functions -/

/-- `isspace` in the C locale: space, tab, newline, vertical tab, form feed,
carriage return. -/
def isCppSpace (c : Char) : Bool :=
  decide (c = ' ') || decide (c = '\t') || decide (c = '\n') ||
  decide (c = Char.ofNat 11) || decide (c = Char.ofNat 12) || decide (c = '\r')

/-- Hexadecimal digit test, as used by `strtol` with base 16. -/
def isHexDigitC (c : Char) : Bool :=
  c.isDigit || (decide ('a' ≤ c) && decide (c ≤ 'f')) || (decide ('A' ≤ c) && decide (c ≤ 'F'))

/-- Numeric value of a hexadecimal digit. -/
def hexDigitVal (c : Char) : Nat :=
  if c.isDigit then c.toNat - '0'.toNat
  else if decide ('a' ≤ c) && decide (c ≤ 'f') then c.toNat - 'a'.toNat + 10
  else c.toNat - 'A'.toNat + 10

/-- Value of a run of hexadecimal digits. -/
def hexVal (ds : List Char) : Nat := ds.foldl (fun a c => a * 16 + hexDigitVal c) 0

/-- Value of a run of decimal digits. -/
def digitsVal (ds : List Char) : Nat := ds.foldl (fun a c => a * 10 + (c.toNat - '0'.toNat)) 0

/-- Optional leading sign, as consumed by the `strtol` family: returns
(negative?, rest). -/
def parseSign (s : List Char) : Bool × List Char :=
  match s with
  | [] => (false, [])
  | c :: r => if c = '-' then (true, r) else if c = '+' then (false, r) else (false, c :: r)

/-! ## Models of the C++ standard library number parsers

These are the parsers the reader calls (`std::stoi` base 16, `std::stoull`,
`std::stoll`, `std::stod`): they skip leading whitespace, accept an optional
sign, parse the longest valid digit prefix, *ignore trailing characters*, and
throw (`none` here) when no digits are found or - for the integer parsers -
when the value is out of range. -/

/-- `std::stoi(s, nullptr, 16)`.  `none` models the thrown
`std::invalid_argument` when no hex digit follows the optional whitespace and
sign.  (`std::stoi` also recognises a `0x` prefix in base 16 and can throw
`out_of_range`; neither is observable on the two-character substrings the
reader passes in, since `"0x"` alone still yields the value 0 from its leading
`0` digit and two hex digits never exceed `INT_MAX`.) -/
def stoi16 (s : List Char) : Option Int :=
  let s1 := s.dropWhile isCppSpace
  let ps := parseSign s1
  let ds := ps.2.takeWhile isHexDigitC
  if ds = [] then none
  else some ((if ps.1 then -1 else 1) * (hexVal ds : Int))

/-- `std::stoull(s)` (base 10): longest decimal-digit prefix after optional
whitespace and sign; a minus sign wraps the value modulo `2^64` (as `strtoull`
does); `none` models the thrown exception (no digits, or magnitude above
`ULLONG_MAX`). -/
def stoullModel (s : List Char) : Option Nat :=
  let s1 := s.dropWhile isCppSpace
  let ps := parseSign s1
  let ds := ps.2.takeWhile Char.isDigit
  if ds = [] then none
  else
    let m := digitsVal ds
    if 2 ^ 64 ≤ m then none
    else some (if ps.1 then (2 ^ 64 - m) % 2 ^ 64 else m)

/-- `std::stoll(s)` (base 10): `none` when no digits or the signed value falls
outside `[-2^63, 2^63 - 1]`. -/
def stollModel (s : List Char) : Option Int :=
  let s1 := s.dropWhile isCppSpace
  let ps := parseSign s1
  let ds := ps.2.takeWhile Char.isDigit
  if ds = [] then none
  else
    let v : Int := if ps.1 then -(digitsVal ds : Int) else (digitsVal ds : Int)
    if v < -(2 ^ 63) ∨ (2 ^ 63 - 1 : Int) < v then none else some v

/-- Optional exponent part of a decimal floating literal (`e`/`E`, sign,
digits); contributes 0 when absent or malformed (`strtod` then simply does not
consume it). -/
def parseExp (s : List Char) : Int :=
  match s with
  | [] => 0
  | c :: r =>
    if c = 'e' ∨ c = 'E' then
      let ps := parseSign r
      let ds := ps.2.takeWhile Char.isDigit
      if ds = [] then 0
      else if ps.1 then -(digitsVal ds : Int) else (digitsVal ds : Int)
    else 0

/-- `std::stod(s)`: the decimal fragment of `strtod` - optional whitespace,
sign, digits with an optional fractional part and exponent; `none` models the
thrown `invalid_argument` when no digit occurs in the significand.  The value
is kept as an exact rational: IEEE-754 binary rounding, the `inf`/`nan`/hex
forms and the `out_of_range` overflow throw are abstracted away (no claim in
this development depends on a concrete floating-point value - the functions
below are only ever compared against each other). -/
def stodModel (s : List Char) : Option Rat :=
  let s1 := s.dropWhile isCppSpace
  let ps := parseSign s1
  let ip := ps.2.takeWhile Char.isDigit
  let s3 := ps.2.drop ip.length
  let fp := match s3 with
            | '.' :: t => t.takeWhile Char.isDigit
            | _ => []
  let s4 := match s3 with
            | '.' :: t => t.drop (t.takeWhile Char.isDigit).length
            | _ => s3
  if ip = [] ∧ fp = [] then none
  else
    let mant : Rat := (digitsVal ip : Rat) + (digitsVal fp : Rat) / ((10 : Rat) ^ fp.length)
    some ((if ps.1 then -mant else mant) * (10 : Rat) ^ parseExp s4)

/-! ## DuckDB StringUtil::Split (external collaborator)

Two distinct overloads are called by the reader:
* `Split(string, char)` (used on the `#fields`/`#types` directive values) runs
  `std::getline` with the separator: interior empty pieces are kept, the piece
  after a trailing separator is dropped, an empty input yields no pieces;
* `Split(string, string)` (used on list fields with the set separator) walks
  `find`/`substr` and pushes only non-empty pieces. -/

/-- `StringUtil::Split(str, sep)` - the `char` overload (`std::getline`
semantics). -/
def splitChar (sep : Char) : List Char → List (List Char)
  | [] => []
  | c :: t =>
    if c = sep then [] :: splitChar sep t
    else
      match splitChar sep t with
      | [] => [[c]]
      | h :: r => (c :: h) :: r

/-- All pieces of `s` between occurrences of `sep`, kept even when empty
(the substrings `[last, next)` pushed by the `string` overload's loop). -/
def splitKeepAll (sep : Char) : List Char → List (List Char)
  | [] => [[]]
  | c :: t =>
    if c = sep then [] :: splitKeepAll sep t
    else
      match splitKeepAll sep t with
      | [] => [[c]]
      | h :: r => (c :: h) :: r

/-- `StringUtil::Split(input, split)` - the `string` overload, called with the
one-character set separator: empty substrings are skipped. -/
def splitSkipEmpty (sep : Char) (s : List Char) : List (List Char) :=
  (splitKeepAll sep s).filter (fun x => x ≠ [])

/-! ## ZeekReader::ParseSeparator -/

/-- `ZeekReader::ParseSeparator`: decodes backslash escapes in a separator
directive value.  `\xHH` (backslash, `x`, at least two further characters)
feeds the two characters to `std::stoi` base 16 and appends the resulting
byte (the `static_cast<char>` keeps the value modulo 256); `\t` and `\n`
decode to tab and newline; any other backslash - including one with too few
trailing characters - is copied through literally and scanning resumes at the
following character.  `Except.error ()` models the uncaught exception
propagating out of `std::stoi`. -/
def byteOfStoi (v : Int) : Char := Char.ofNat (v.emod 256).toNat

def parseSeparator : List Char → Except Unit (List Char)
  | [] => .ok []
  | '\\' :: 'x' :: h1 :: h2 :: rest2 =>
    (match stoi16 [h1, h2] with
     | none => .error ()
     | some v => (parseSeparator rest2).map (fun r => byteOfStoi v :: r))
  | '\\' :: 't' :: rest2 => (parseSeparator rest2).map (fun r => '\t' :: r)
  | '\\' :: 'n' :: rest2 => (parseSeparator rest2).map (fun r => '\n' :: r)
  | '\\' :: c :: rest => (parseSeparator (c :: rest)).map (fun r => '\\' :: r)
  | c :: rest => (parseSeparator rest).map (fun r => c :: r)

/-! ## ZeekReader::ReadLine -/

/-- Loop body of `ZeekReader::ReadLine`: reads bytes one at a time into the
accumulated line; `\n` terminates the line, `\r` bytes are not appended, and
at end of stream the call succeeds only when the accumulated line is
non-empty. -/
def readLineGo (acc : List Char) : List Char → Option (List Char × List Char)
  | [] => if acc = [] then none else some (acc, [])
  | c :: t =>
    if c = '\n' then some (acc, t)
    else if c = '\r' then readLineGo acc t
    else readLineGo (acc ++ [c]) t

/-- `ZeekReader::ReadLine` on a byte stream: `some (line, rest)` when a line
was produced, `none` at end of stream (the C++ `bool` result with the line
output parameter). -/
def readLine (s : List Char) : Option (List Char × List Char) := readLineGo [] s

/-! ## The header descriptor and ZeekReader::ParseHeader -/

/-- `ZeekHeader` (zeek_reader.hpp), with the same field defaults. -/
structure ZeekHeader where
  separator : Char := '\t'
  set_separator : Char := ','
  empty_field : List Char := "(empty)".data
  unset_field : List Char := "-".data
  path : List Char := []
  open_time : List Char := []
  fields : List (List Char) := []
  types : List (List Char) := []
  header_line_count : Nat := 0
  deriving DecidableEq, Repr

/-- The distinct failures `ParseHeader` can surface: the three
`InvalidInputException`s it throws itself, plus the `std::invalid_argument`
propagating uncaught out of `std::stoi` inside `ParseSeparator`. -/
inductive ZeekError where
  | missingFields
  | missingTypes
  | countMismatch
  | stoiInvalid
  deriving DecidableEq, Repr

/-- `string::find(c)` as an optional index. -/
def findIdxOpt (c : Char) (s : List Char) : Option Nat :=
  s.findIdx? (fun x => x = c)

/-- One iteration of the `ParseHeader` directive loop applied to a header line
(`line[0] = '#'`): split at the first tab, else the first space; dispatch on
the directive name.  `Except.error` is the `std::stoi` exception escaping from
`ParseSeparator`. -/
def processDirective (h : ZeekHeader) (line : List Char) : Except Unit ZeekHeader :=
  let spacePos : Option Nat :=
    match findIdxOpt '\t' line with
    | some p => some p
    | none => findIdxOpt ' ' line
  let directive : List Char :=
    match spacePos with
    | some p => (line.take p).drop 1
    | none => line.drop 1
  let value : List Char :=
    match spacePos with
    | some p => line.drop (p + 1)
    | none => []
  if directive = "separator".data then
    (parseSeparator value).map (fun parsed =>
      match parsed with
      | [] => h
      | c :: _ => { h with separator := c })
  else if directive = "set_separator".data then
    (parseSeparator value).map (fun parsed =>
      match parsed with
      | [] => h
      | c :: _ => { h with set_separator := c })
  else if directive = "empty_field".data then .ok { h with empty_field := value }
  else if directive = "unset_field".data then .ok { h with unset_field := value }
  else if directive = "path".data then .ok { h with path := value }
  else if directive = "open".data then .ok { h with open_time := value }
  else if directive = "fields".data then .ok { h with fields := splitChar h.separator value }
  else if directive = "types".data then .ok { h with types := splitChar h.separator value }
  else .ok h

/-- The `while (ReadLine(...))` loop of `ParseHeader`, with explicit fuel to
keep the definition structurally recursive (each iteration consumes at least
one character of the stream, so any fuel exceeding the stream length is
enough: `parseHeaderGo_fuel` below proves the result is then independent of
the fuel).  Returns the header under construction, the `line_count`, and the
unread remainder of the stream. -/
def parseHeaderGo : Nat → ZeekHeader → Nat → List Char → Except ZeekError (ZeekHeader × Nat × List Char)
  | 0, h, cnt, s => .ok (h, cnt, s)
  | fuel + 1, h, cnt, s =>
    match readLine s with
    | none => .ok (h, cnt, s)
    | some (line, rest) =>
      if line = [] ∨ line.head? ≠ some '#' then .ok (h, cnt + 1, rest)
      else
        match processDirective h line with
        | .error _ => .error ZeekError.stoiInvalid
        | .ok h2 => parseHeaderGo fuel h2 (cnt + 1) rest

/-- The directive loop of `ParseHeader` run on a whole stream. -/
def parseHeaderRaw (s : List Char) : Except ZeekError (ZeekHeader × Nat × List Char) :=
  parseHeaderGo (s.length + 1) {} 0 s

/-- `ZeekReader::ParseHeader`: run the directive loop, record
`header_line_count = line_count - 1` (the subtraction is on `idx_t`, a 64-bit
unsigned type, hence the wrap-around arithmetic - though `line_count = 0`
never reaches a successful return, since the fields list is then empty), and
apply the three post-condition checks in order. -/
def parseHeader (s : List Char) : Except ZeekError ZeekHeader :=
  match parseHeaderRaw s with
  | .error e => .error e
  | .ok (h0, cnt, _) =>
    let h := { h0 with header_line_count := (cnt + (2 ^ 64 - 1)) % 2 ^ 64 }
    if h.fields = [] then .error ZeekError.missingFields
    else if h.types = [] then .error ZeekError.missingTypes
    else if h.fields.length ≠ h.types.length then .error ZeekError.countMismatch
    else .ok h

/-! ## The type mapper -/

/-- The closed set of DuckDB logical types the reader produces
(`LogicalType::TIMESTAMP_TZ`, `DOUBLE`, `UBIGINT`, `BIGINT`, `BOOLEAN`,
`VARCHAR`, and `LIST(child)`). -/
inductive LType where
  | timestampTZ
  | double
  | ubigint
  | bigint
  | boolean
  | varchar
  | list (child : LType)
  deriving DecidableEq, Repr

/-- `StringUtil::StartsWith`. -/
def startsWithL (p s : List Char) : Prop := s.take p.length = p

instance (p s : List Char) : Decidable (startsWithL p s) := by
  unfold startsWithL; infer_instance

/-- `ZeekReader::ExtractInnerType`: the substring strictly between the first
`[` and the last `]`, falling back to `"string"` when the brackets are absent
or mis-ordered. -/
def extractInnerType (s : List Char) : List Char :=
  match findIdxOpt '[' s, (s.reverse.findIdx? (fun x => x = ']')).map (fun i => s.length - 1 - i) with
  | some bs, some be => if bs < be then (s.take be).drop (bs + 1) else "string".data
  | some _, none => "string".data
  | none, _ => "string".data

/-- `ZeekReader::ZeekTypeToDuckDBType`, with explicit fuel standing for the
C++ call stack: the branches and their order mirror the source, and the
container branch recurses on `ExtractInnerType`.  `none` would mean the fuel
ran out; `resolveFuel_isSome` below proves fuel `s.length + 1` always
suffices, i.e. the C++ recursion terminates on every input. -/
def resolveFuel : Nat → List Char → Option LType
  | 0, _ => none
  | fuel + 1, s =>
    if s = "time".data then some .timestampTZ
    else if s = "interval".data ∨ s = "double".data then some .double
    else if s = "count".data then some .ubigint
    else if s = "int".data then some .bigint
    else if s = "bool".data then some .boolean
    else if s = "string".data ∨ s = "addr".data ∨ s = "subnet".data ∨
            s = "port".data ∨ s = "enum".data then some .varchar
    else if startsWithL "vector[".data s ∨ startsWithL "set[".data s then
      (resolveFuel fuel (extractInnerType s)).map .list
    else some .varchar

/-- `ZeekReader::ZeekTypeToDuckDBType` as a total function (justified by
`resolveFuel_isSome`). -/
def zeekTypeToDuckDBType (s : List Char) : LType :=
  (resolveFuel (s.length + 1) s).getD .varchar

/-! ## Decoded values and the row decoder (ZeekScanExecute / AppendListValue)

A cell written into an output vector is modelled as `Option ZVal`:
`none` is a NULL (`FlatVector::SetNull`), `some v` a typed value. -/

/-- A typed value written into a DuckDB vector.  `vtimestamp` carries the
microsecond count of `timestamp_tz_t`; `vdouble` the (exact rational model of
the) `double`. -/
inductive ZVal where
  | vdouble (x : Rat)
  | vubigint (n : Nat)
  | vbigint (n : Int)
  | vbool (b : Bool)
  | vtimestamp (micros : Int)
  | vstr (s : List Char)
  | vlist (xs : List (Option ZVal))

/-- `EpochSecondsToTimestampTZ`: `static_cast<int64_t>(epoch_seconds *
1000000.0)` - multiplication by 10^6 and truncation toward zero (exact
rational arithmetic stands in for `double`; the undefined behaviour of an
out-of-range cast is not modelled). -/
def epochSecondsToMicros (q : Rat) : Int :=
  let m := q * (1000000 : Rat)
  Int.tdiv m.num (m.den : Int)

/-- The scalar arms of the per-column `switch (type_id)` in `ZeekScanExecute`
(part_000 lines 210-259, everything except the `LIST` case): `DOUBLE`,
`UBIGINT` and `BIGINT` parse with `std::stod`/`stoull`/`stoll` and degrade to
NULL on a caught exception; `BOOLEAN` is true exactly on `"T"`/`"true"`;
`TIMESTAMP_TZ` parses epoch seconds with `std::stod`; `VARCHAR` and the
`default` arm copy the text verbatim. -/
def scanConvertScalar (t : LType) (s : List Char) : Option ZVal :=
  match t with
  | .double => (stodModel s).map ZVal.vdouble
  | .ubigint => (stoullModel s).map ZVal.vubigint
  | .bigint => (stollModel s).map ZVal.vbigint
  | .boolean => some (.vbool (s == "T".data || s == "true".data))
  | .timestampTZ => (stodModel s).map (fun q => .vtimestamp (epochSecondsToMicros q))
  | _ => some (.vstr s)

/-- The element `switch (child_type_id)` in `AppendListValue` (part_000 lines
68-110).  It has the same six arms as the scan loop's scalar switch; a nested
`LIST` child type falls into the `default` arm (stored as text). -/
def listConvertElem (t : LType) (e : List Char) : Option ZVal :=
  match t with
  | .double => (stodModel e).map ZVal.vdouble
  | .ubigint => (stoullModel e).map ZVal.vubigint
  | .bigint => (stollModel e).map ZVal.vbigint
  | .boolean => some (.vbool (e == "T".data || e == "true".data))
  | .timestampTZ => (stodModel e).map (fun q => .vtimestamp (epochSecondsToMicros q))
  | _ => some (.vstr e)

/-- The six scalar (non-`LIST`) logical types the reader can resolve. -/
def isScalarType : LType → Bool
  | .list _ => false
  | _ => true

/-- Decoding of one list element in `AppendListValue`: the sentinel check
(lines 63-66) makes the entry NULL, otherwise the element switch runs. -/
def listElemDecode (uns emp : List Char) (t : LType) (e : List Char) : Option ZVal :=
  if e = uns ∨ e = emp then none else listConvertElem t e

/-- `AppendListValue`: a field equal to either sentinel produces an empty list
(offset/length 0, lines 41-45); otherwise the field is split on the set
separator (via the empty-skipping string overload of `Split`) and each
element decoded by `listElemDecode`. -/
def appendListValue (uns emp : List Char) (ssep : Char) (child : LType) (fv : List Char) :
    List (Option ZVal) :=
  if fv = uns ∨ fv = emp then []
  else (splitSkipEmpty ssep fv).map (listElemDecode uns emp child)

/-- Decoding of one field for one column in `ZeekScanExecute` (part_000 lines
202-259): first the sentinel-to-NULL check (lines 204-207, applied to every
column type, lists included), then the type switch, whose `LIST` case calls
`AppendListValue` and whose other arms are `scanConvertScalar`. -/
def decodeField (uns emp : List Char) (ssep : Char) (t : LType) (fv : List Char) : Option ZVal :=
  if fv = uns ∨ fv = emp then none
  else
    match t with
    | .list child => some (.vlist (appendListValue uns emp ssep child fv))
    | t => scanConvertScalar t fv

/-- The per-row column loop of `ZeekScanExecute` (part_000 lines 192-260):
split the line on the field separator; a column index beyond the produced
fields is NULL (short row); otherwise decode the field. -/
def decodeRow (hdr : ZeekHeader) (colTypes : List LType) (line : List Char) :
    List (Option ZVal) :=
  let fields := splitChar hdr.separator line
  colTypes.enum.map (fun it =>
    match fields.get? it.1 with
    | none => none
    | some fv => decodeField hdr.unset_field hdr.empty_field hdr.set_separator it.2 fv)

/-! ## The scan state machine (part_000) -/

/-- `ZeekScanBindData`: immutable after bind. -/
structure ZeekScanBindData where
  file_paths : List (List Char) := []
  header : ZeekHeader := {}
  column_types : List LType := []
  filename_column : Bool := false

/-- `ZeekScanGlobalState`.  The open `FileHandle` is modelled by the unread
remainder of the file's byte stream.  (The unused `line_buffer` member of
the C++ struct is omitted: `ZeekScanExecute` reads into a local.) -/
structure ZeekScanGlobalState where
  current_file_idx : Nat := 0
  file_handle : List Char := []
  finished : Bool := false
  current_file_path : List Char := []

/-- The header-skipping loop of `OpenNextFile` (part_000 lines 24-30): skip up
to `n` lines, stopping early if `ReadLine` fails. -/
def skipLines : Nat → List Char → List Char
  | 0, s => s
  | n + 1, s =>
    match readLine s with
    | none => s
    | some (_, rest) => skipLines n rest

/-- `OpenNextFile` (part_000 lines 14-34).  The file system is modelled as a
map from path to file contents.  The C++ `while` loop returns `true` at the
end of its first iteration whenever one was entered, so it opens at most one
file: if the index is past the path list it returns `false` (`none`),
otherwise it opens `file_paths[idx]`, advances the index, skips
`header.header_line_count` lines and returns `true` with the updated state. -/
def openNextFile (fs : List Char → List Char) (bind : ZeekScanBindData)
    (st : ZeekScanGlobalState) : Option ZeekScanGlobalState :=
  match bind.file_paths.get? st.current_file_idx with
  | none => none
  | some p =>
    some { st with
            current_file_idx := st.current_file_idx + 1,
            current_file_path := p,
            file_handle := skipLines bind.header.header_line_count (fs p) }

/-- One output row of `ZeekScanExecute`: the decoded data columns, plus the
provenance column with the current file path when `filename` was requested
(lines 262-266). -/
def scanRow (bind : ZeekScanBindData) (st : ZeekScanGlobalState) (line : List Char) :
    List (Option ZVal) :=
  decodeRow bind.header bind.column_types line ++
    (if bind.filename_column then [some (.vstr st.current_file_path)] else [])

/-- `STANDARD_VECTOR_SIZE`. -/
def standardVectorSize : Nat := 2048

/-- The `while (row_count < STANDARD_VECTOR_SIZE)` loop of `ZeekScanExecute`
(part_000 lines 179-269), with explicit fuel standing for the loop counter:
every iteration either consumes at least one character of the open handle or
advances the file index, so `executeFuel` below exceeds any possible number
of iterations; on fuel exhaustion (unreachable with that fuel) the loop's
exit value is returned.  `rowsLeft` is `STANDARD_VECTOR_SIZE - row_count`,
`acc` the rows already written into the output chunk. -/
def executeGo (fs : List Char → List Char) (bind : ZeekScanBindData) :
    Nat → ZeekScanGlobalState → Nat → List (List (Option ZVal)) →
    ZeekScanGlobalState × List (List (Option ZVal))
  | 0, st, _, acc => (st, acc)
  | fuel + 1, st, rowsLeft, acc =>
    if rowsLeft = 0 then (st, acc)
    else
      match readLine st.file_handle with
      | none =>
        match openNextFile fs bind st with
        | none => ({ st with finished := true }, acc)
        | some st2 => executeGo fs bind fuel st2 rowsLeft acc
      | some (line, rest) =>
        let st2 := { st with file_handle := rest }
        if line = [] ∨ line.head? = some '#' then executeGo fs bind fuel st2 rowsLeft acc
        else executeGo fs bind fuel st2 (rowsLeft - 1) (acc ++ [scanRow bind st2 line])

/-- An upper bound on the iterations the scan loop can make from state `st`:
the unread characters of the open handle, the characters of every file not
yet opened, one slot per file opening, and one final failing read. -/
def executeFuel (fs : List Char → List Char) (bind : ZeekScanBindData)
    (st : ZeekScanGlobalState) : Nat :=
  st.file_handle.length +
    ((bind.file_paths.drop st.current_file_idx).map (fun p => (fs p).length)).sum +
    2 * bind.file_paths.length + 2

/-- `ZeekScanExecute` (part_000 lines 166-272): a finished scan returns an
empty chunk at once and leaves the state untouched; otherwise the read loop
runs.  The result is the updated global state and the rows of the produced
chunk (`output.SetCardinality(row_count)`). -/
def zeekScanExecute (fs : List Char → List Char) (bind : ZeekScanBindData)
    (st : ZeekScanGlobalState) : ZeekScanGlobalState × List (List (Option ZVal)) :=
  if st.finished then (st, [])
  else executeGo fs bind (executeFuel fs bind st) st standardVectorSize []

/-! ## Helper lemmas -/

/-- The `ReadLine` loop body never lengthens the unread remainder. -/
theorem readLineGo_length_le :
    ∀ (s acc l r : List Char), readLineGo acc s = some (l, r) → r.length ≤ s.length := by
  intro s
  induction s with
  | nil =>
    intro acc l r h
    simp only [readLineGo] at h
    by_cases hacc : acc = [] <;> simp [hacc] at h
    simp [← h.2]
  | cons c t ih =>
    intro acc l r h
    simp only [readLineGo] at h
    by_cases h1 : c = '\n'
    · simp [h1] at h
      simp [← h.2, List.length_cons]
    · by_cases h2 : c = '\r' <;> simp [h1, h2] at h
      · exact Nat.le_succ_of_le (ih _ _ _ h)
      · exact Nat.le_succ_of_le (ih _ _ _ h)

/-- A successful `ReadLine` consumes at least one character of the stream. -/
theorem readLine_length_lt (s l r : List Char) (h : readLine s = some (l, r)) :
    r.length < s.length := by
  cases s with
  | nil => simp [readLine, readLineGo] at h
  | cons c t =>
    simp only [readLine, readLineGo] at h
    by_cases h1 : c = '\n'
    · simp [h1] at h
      simp [← h.2, List.length_cons, Nat.lt_succ_self]
    · by_cases h2 : c = '\r' <;> simp [h1, h2] at h
      · exact Nat.lt_succ_of_le (readLineGo_length_le _ _ _ _ h)
      · exact Nat.lt_succ_of_le (readLineGo_length_le _ _ _ _ h)

/-- Fuel adequacy for the header loop: any fuel exceeding the stream length
gives the same result (each iteration consumes at least one character), so
`parseHeaderRaw` is fuel-independent and faithfully renders the unbounded
C++ `while` loop. -/
theorem parseHeaderGo_fuel :
    ∀ (f1 f2 : Nat) (h : ZeekHeader) (cnt : Nat) (s : List Char),
      s.length < f1 → s.length < f2 →
      parseHeaderGo f1 h cnt s = parseHeaderGo f2 h cnt s := by
  intro f1
  induction f1 with
  | zero => intro f2 h cnt s hs; omega
  | succ n ih =>
    intro f2 h cnt s hs1 hs2
    cases f2 with
    | zero => omega
    | succ m =>
      simp only [parseHeaderGo]
      cases hr : readLine s with
      | none => rfl
      | some lr =>
        obtain ⟨line, rest⟩ := lr
        have hlt : rest.length < s.length := readLine_length_lt s line rest hr
        by_cases hb : line = [] ∨ line.head? ≠ some '#'
        · simp [hb]
        · simp only [if_neg hb]
          cases processDirective h line with
          | error e => rfl
          | ok h2 => exact ih m h2 (cnt + 1) rest (by omega) (by omega)

/-! ## Claim theorems -/

/-- C6: the type resolution mapping table holds exactly as stated:
`time` maps to timestamp-with-timezone; `interval` and `double` to double;
`count` to uint64; `int` to int64; `bool` to boolean; `string`, `addr`,
`subnet`, `port` and `enum` to text; `vector[string]` to list of text;
`set[int]` to list of int64; `vector[vector[double]]` to a nested list of
double; and the unrecognized name `frobnicate` to text. -/
theorem zeek_C6 :
    zeekTypeToDuckDBType "time".data = LType.timestampTZ ∧
    zeekTypeToDuckDBType "interval".data = LType.double ∧
    zeekTypeToDuckDBType "double".data = LType.double ∧
    zeekTypeToDuckDBType "count".data = LType.ubigint ∧
    zeekTypeToDuckDBType "int".data = LType.bigint ∧
    zeekTypeToDuckDBType "bool".data = LType.boolean ∧
    zeekTypeToDuckDBType "string".data = LType.varchar ∧
    zeekTypeToDuckDBType "addr".data = LType.varchar ∧
    zeekTypeToDuckDBType "subnet".data = LType.varchar ∧
    zeekTypeToDuckDBType "port".data = LType.varchar ∧
    zeekTypeToDuckDBType "enum".data = LType.varchar ∧
    zeekTypeToDuckDBType "vector[string]".data = LType.list LType.varchar ∧
    zeekTypeToDuckDBType "set[int]".data = LType.list LType.bigint ∧
    zeekTypeToDuckDBType "vector[vector[double]]".data =
      LType.list (LType.list LType.double) ∧
    zeekTypeToDuckDBType "frobnicate".data = LType.varchar :=
  ⟨rfl, rfl, rfl, rfl, rfl, rfl, rfl, rfl, rfl, rfl, rfl, rfl, rfl, rfl, rfl⟩

/-- C8: once the scan state reports exhaustion (`finished = true`), a call to
`ZeekScanExecute` returns an empty chunk (zero rows), raises no error, and
returns the state entirely unchanged - so exhaustion is terminal and every
subsequent call behaves identically. -/
theorem zeek_C8 (fs : List Char → List Char) (bind : ZeekScanBindData)
    (st : ZeekScanGlobalState) (h : st.finished = true) :
    zeekScanExecute fs bind st = (st, []) := by
  simp [zeekScanExecute, h]

/-- Witness for C8 at a concrete exhausted state. -/
theorem zeek_C8_witness :
    zeekScanExecute (fun _ => []) {} { finished := true } = ({ finished := true }, []) :=
  zeek_C8 (fun _ => []) {} { finished := true } rfl

/-- C1 (code-bug record): with the default sentinels (`unset_field = "-"`,
`empty_field = "(empty)"`) and a column of resolved type `vector[string]`,
the scan's row decoder turns the whole-field sentinel `"-"` into NULL - not
into an empty list as the claim states - because `ZeekScanExecute`'s
sentinel-to-NULL check (part_000 lines 204-207) runs for list columns too,
before the `LIST` switch arm; `AppendListValue`'s own empty-list branch
(lines 41-45), which would realize the claimed behaviour, is unreachable
from the scan (second conjunct).  The claim's element-level half does hold:
field `"a,-,b"` decodes to the list `["a", NULL, "b"]` (third conjunct). -/
theorem zeek_C1_eval :
    decodeRow {} [LType.list LType.varchar] "-".data = [none] ∧
    appendListValue "-".data "(empty)".data ',' LType.varchar "-".data = [] ∧
    decodeRow {} [LType.list LType.varchar] "a,-,b".data =
      [some (ZVal.vlist [some (ZVal.vstr "a".data), none, some (ZVal.vstr "b".data)])] :=
  ⟨rfl, rfl, rfl⟩

/-- C2 (counterexample): `ParseSeparator` is *not* failure-free on all
inputs - on `"\xZZ"` the `\x` branch fires (two characters follow the `x`)
and hands `"ZZ"` to `std::stoi` base 16, which finds no digit and throws
`std::invalid_argument`, uncaught. -/
theorem zeek_C2_cex : parseSeparator "\\xZZ".data = Except.error () := rfl

/-- C3 (code-bug record): on the stream `"#fields a\n#types string\n"` the
header loop consumes 2 lines, both inside the `#`-prefixed region, and ends
at end-of-stream with nothing left unread (first conjunct: line count 2,
remainder empty); `ParseHeader` succeeds yet records
`header_line_count = 1` (second conjunct) - `line_count - 1` is only correct
when the loop was terminated by a non-header line, not by end of stream. -/
theorem zeek_C3_eval :
    (parseHeaderRaw "#fields a\n#types string\n".data).map (fun r => (r.2.1, r.2.2)) =
      Except.ok (2, ([] : List Char)) ∧
    (parseHeader "#fields a\n#types string\n".data).map (fun h => h.header_line_count) =
      Except.ok 1 :=
  ⟨rfl, rfl⟩

/-- C4 (counterexample): `ReadLine` does not strip only the `\r` immediately
preceding the terminator - it drops every `\r` in the line: the stream
`"a\rb\n"` yields the line `"ab"`, not `"a\rb"`. -/
theorem zeek_C4_cex :
    readLine "a\rb\n".data = some ("ab".data, []) ∧
    ("ab".data : List Char) ≠ "a\rb".data :=
  ⟨rfl, by decide⟩

/-- C5 (counterexample): `ParseHeader` has a fourth, unnamed failure mode
beyond the three post-condition checks: a `#separator \xZZ` directive makes
`ParseSeparator` propagate `std::stoi`'s `invalid_argument`, so the parse
fails although the fields/types conditions are not involved. -/
theorem zeek_C5_cex :
    parseHeader "#separator \\xZZ\nx".data = Except.error ZeekError.stoiInvalid := rfl

/-- `StartsWith` forces the prefix to fit. -/
theorem startsWithL_length_le (p s : List Char) (h : startsWithL p s) :
    p.length ≤ s.length := by
  unfold startsWithL at h
  have := congrArg List.length h
  simp [List.length_take] at this
  omega

/-- `ExtractInnerType` either strictly shrinks a non-empty input or falls back
to the literal `"string"`. -/
theorem extractInnerType_cases (s : List Char) (hs : 1 ≤ s.length) :
    (extractInnerType s).length < s.length ∨ extractInnerType s = "string".data := by
  unfold extractInnerType
  cases h1 : findIdxOpt '[' s with
  | none => right; rfl
  | some bs =>
    cases h2 : (s.reverse.findIdx? (fun x => x = ']')).map (fun i => s.length - 1 - i) with
    | none => right; rfl
    | some be =>
      by_cases hlt : bs < be
      · left
        simp only [if_pos hlt, List.length_drop, List.length_take]
        omega
      · right; simp [if_neg hlt]

/-- `"string"` resolves in one step at any positive fuel. -/
theorem resolveFuel_string (n : Nat) :
    resolveFuel (n + 1) "string".data = some LType.varchar := rfl

/-- Any fuel exceeding the input length suffices for the type mapper. -/
theorem resolveFuel_isSome :
    ∀ (fuel : Nat) (s : List Char), s.length < fuel →
      (resolveFuel fuel s).isSome = true := by
  intro fuel
  induction fuel with
  | zero => intro s hs; omega
  | succ n ih =>
    intro s hs
    simp only [resolveFuel]
    split_ifs with h1 h2 h3 h4 h5 h6 h7
    · rfl
    · rfl
    · rfl
    · rfl
    · rfl
    · rfl
    · have hlen : 4 ≤ s.length := by
        rcases h7 with h | h
        · have := startsWithL_length_le _ _ h; simp at this; omega
        · have := startsWithL_length_le _ _ h; simp at this; omega
      have key : (resolveFuel n (extractInnerType s)).isSome = true := by
        rcases extractInnerType_cases s (by omega) with hlt | hstr
        · exact ih _ (by omega)
        · rw [hstr]
          cases n with
          | zero => omega
          | succ m => rw [resolveFuel_string]; rfl
      obtain ⟨t, ht⟩ := Option.isSome_iff_exists.mp key
      simp [ht]
    · rfl

/-- C7: the type mapper is pure and total - for every input string, including
arbitrarily nested container syntax and malformed or absent brackets, the
recursion on the bracket-extracted inner substring terminates (call depth at
most the input length) and a logical type is returned, with no error for any
input. -/
theorem zeek_C7 (s : List Char) : (resolveFuel (s.length + 1) s).isSome = true :=
  resolveFuel_isSome (s.length + 1) s (Nat.lt_succ_self _)

/-- C10: for every scalar logical type (double, uint64, int64, boolean,
timestamp-with-timezone, text) and every field string that is not a
sentinel, the scan loop's top-level column conversion and the list decoder's
element conversion agree exactly - the same typed value, or NULL in both. -/
theorem zeek_C10 (uns emp : List Char) (ssep : Char) (t : LType) (s : List Char)
    (ht : isScalarType t = true) (hs : ¬(s = uns ∨ s = emp)) :
    decodeField uns emp ssep t s = listElemDecode uns emp t s := by
  unfold decodeField listElemDecode
  rw [if_neg hs, if_neg hs]
  cases t
  case list c => simp [isScalarType] at ht
  all_goals rfl

/-- Witness for C10 at type uint64 and field `"7"` with the default
sentinels. -/
theorem zeek_C10_witness :
    decodeField "-".data "(empty)".data ',' LType.ubigint "7".data =
      listElemDecode "-".data "(empty)".data LType.ubigint "7".data :=
  zeek_C10 "-".data "(empty)".data ',' LType.ubigint "7".data rfl (by decide)

/-- A decimal digit is not C whitespace. -/
theorem digit_not_space (c : Char) (h : c.isDigit = true) : isCppSpace c = false := by
  have h1 : c ≠ ' ' := by rintro rfl; exact absurd h (by decide)
  have h2 : c ≠ '\t' := by rintro rfl; exact absurd h (by decide)
  have h3 : c ≠ '\n' := by rintro rfl; exact absurd h (by decide)
  have h4 : c ≠ Char.ofNat 11 := by rintro rfl; exact absurd h (by decide)
  have h5 : c ≠ Char.ofNat 12 := by rintro rfl; exact absurd h (by decide)
  have h6 : c ≠ '\r' := by rintro rfl; exact absurd h (by decide)
  simp [isCppSpace, h1, h2, h3, h4, h5, h6]

/-- `takeWhile` stops exactly at the first character failing the predicate. -/
theorem takeWhile_append_all (p : Char → Bool) :
    ∀ (ds rest : List Char) (c : Char), (∀ x ∈ ds, p x = true) → p c = false →
      (ds ++ c :: rest).takeWhile p = ds := by
  intro ds
  induction ds with
  | nil => intro rest c _ hc; simp [List.takeWhile_cons, hc]
  | cons d t ih =>
    intro rest c hall hc
    have hd : p d = true := hall d (by simp)
    simp only [List.cons_append, List.takeWhile_cons, hd, if_true]
    rw [ih rest c (fun x hx => hall x (by simp [hx])) hc]

/-- C9: count and int columns follow `std::stoull`/`std::stoll` semantics,
not strict whole-string parsing.  First conjunct, generally: any field that
starts with a non-empty run of decimal digits (value below `2^64`) followed
by a non-digit decodes in a count column to that numeric prefix, trailing
characters ignored.  Then concretely: `"42abc"` decodes to 42 in both count
and int columns; in a count column `"-1"` wraps modulo `2^64` to
18446744073709551615 (and in an int column stays -1); text with no numeric
prefix (`"abc"`) and out-of-range values (`2^64` for count, `2^63` for int)
degrade to NULL. -/
theorem zeek_C9 :
    (∀ (d : Char) (ds : List Char) (c : Char) (rest : List Char),
        (∀ x ∈ d :: ds, x.isDigit = true) → c.isDigit = false →
        digitsVal (d :: ds) < 2 ^ 64 →
        decodeField "-".data "(empty)".data ',' LType.ubigint ((d :: ds) ++ c :: rest) =
          some (ZVal.vubigint (digitsVal (d :: ds)))) ∧
    decodeField "-".data "(empty)".data ',' LType.ubigint "42abc".data =
      some (ZVal.vubigint 42) ∧
    decodeField "-".data "(empty)".data ',' LType.ubigint "-1".data =
      some (ZVal.vubigint 18446744073709551615) ∧
    decodeField "-".data "(empty)".data ',' LType.ubigint "abc".data = none ∧
    decodeField "-".data "(empty)".data ',' LType.ubigint "18446744073709551616".data =
      none ∧
    decodeField "-".data "(empty)".data ',' LType.bigint "42abc".data =
      some (ZVal.vbigint 42) ∧
    decodeField "-".data "(empty)".data ',' LType.bigint "-1".data =
      some (ZVal.vbigint (-1)) ∧
    decodeField "-".data "(empty)".data ',' LType.bigint "9223372036854775808".data =
      none := by
  refine ⟨?_, rfl, rfl, rfl, rfl, rfl, rfl, rfl⟩
  intro d ds c rest hall hc hlt
  have hd : d.isDigit = true := hall d (by simp)
  have hdm : d ≠ '-' := by rintro rfl; exact absurd hd (by decide)
  have hdp : d ≠ '+' := by rintro rfl; exact absurd hd (by decide)
  have hsent : ¬((d :: ds) ++ c :: rest = "-".data ∨
      (d :: ds) ++ c :: rest = "(empty)".data) := by
    have e1 : "-".data = ['-'] := rfl
    have e2 : "(empty)".data = ['(', 'e', 'm', 'p', 't', 'y', ')'] := rfl
    rintro (he | he)
    · rw [e1, List.cons_append] at he
      injection he with hh _
      exact absurd hd (hh ▸ by decide)
    · rw [e2, List.cons_append] at he
      injection he with hh _
      exact absurd hd (hh ▸ by decide)
  unfold decodeField
  rw [if_neg hsent]
  show scanConvertScalar LType.ubigint ((d :: ds) ++ c :: rest) = _
  have hsu : stoullModel ((d :: ds) ++ c :: rest) = some (digitsVal (d :: ds)) := by
    unfold stoullModel
    rw [List.cons_append, List.dropWhile_cons, digit_not_space d hd]
    simp only [Bool.false_eq_true, if_false]
    rw [show parseSign (d :: (ds ++ c :: rest)) = (false, d :: (ds ++ c :: rest)) by
      simp [parseSign, hdm, hdp]]
    simp only
    rw [← List.cons_append, takeWhile_append_all Char.isDigit (d :: ds) rest c hall hc]
    have hle : ¬ 2 ^ 64 ≤ digitsVal (d :: ds) := by omega
    simp [hle]
    omega
  rw [show scanConvertScalar LType.ubigint ((d :: ds) ++ c :: rest) =
    (stoullModel ((d :: ds) ++ c :: rest)).map ZVal.vubigint from rfl, hsu]
  rfl

/-- Witness for C9's general conjunct: the field `"7z"` in a count column
decodes to 7 (digit prefix accepted, trailing text ignored). -/
theorem zeek_C9_witness :
    decodeField "-".data "(empty)".data ',' LType.ubigint "7z".data =
      some (ZVal.vubigint 7) :=
  zeek_C9.1 '7' [] 'z' [] (by decide) (by decide) (by decide)

/-- Closed form of the `ReadLine` loop for an arbitrary partially-accumulated
line. -/
theorem readLineGo_eq :
    ∀ (s acc : List Char),
      readLineGo acc s =
        if ('\n' ∈ s) ∨
            acc ++ (s.takeWhile (fun c => c != '\n')).filter (fun c => c != '\r') ≠ [] then
          some (acc ++ (s.takeWhile (fun c => c != '\n')).filter (fun c => c != '\r'),
                (s.dropWhile (fun c => c != '\n')).drop 1)
        else none := by
  intro s
  induction s with
  | nil =>
    intro acc
    by_cases h : acc = [] <;> simp [readLineGo, h]
  | cons c t ih =>
    intro acc
    by_cases h1 : c = '\n'
    · subst h1
      simp [readLineGo, List.takeWhile_cons, List.dropWhile_cons]
    · have hb1 : (c != '\n') = true := by simp [h1]
      by_cases h2 : c = '\r'
      · subst h2
        have hstep : readLineGo acc ('\r' :: t) = readLineGo acc t := by
          simp [readLineGo]
        rw [hstep, ih acc]
        simp [List.takeWhile_cons, List.dropWhile_cons, List.filter_cons]
      · have hb2 : (c != '\r') = true := by simp [h2]
        have hstep : readLineGo acc (c :: t) = readLineGo (acc ++ [c]) t := by
          simp [readLineGo, h1, h2]
        rw [hstep, ih (acc ++ [c])]
        simp only [List.takeWhile_cons, List.dropWhile_cons, List.filter_cons, hb1, hb2,
          if_true, List.append_assoc, List.singleton_append]
        have hne : ¬(acc ++ c ::
            (t.takeWhile (fun x => x != '\n')).filter (fun x => x != '\r') = []) := by
          simp
        rw [if_pos (Or.inr hne), if_pos (Or.inr hne)]

/-- The literal-copy fallthrough of `ParseSeparator`: a backslash followed by
anything that is not a recognized escape is kept, and scanning resumes at
the character after the backslash. -/
theorem parseSeparator_literal (c : Char) (rest : List Char)
    (hx : c ≠ 'x') (ht : c ≠ 't') (hn : c ≠ 'n') :
    parseSeparator ('\\' :: c :: rest) =
      (parseSeparator (c :: rest)).map (fun r => '\\' :: r) := by
  rw [parseSeparator.eq_def]
  split
  · simp_all
  · rename_i heq; rw [List.cons.injEq, List.cons.injEq] at heq; exact absurd heq.2.1 hx
  · rename_i heq; rw [List.cons.injEq, List.cons.injEq] at heq; exact absurd heq.2.1 ht
  · rename_i heq; rw [List.cons.injEq, List.cons.injEq] at heq; exact absurd heq.2.1 hn
  · rename_i heq
    rw [List.cons.injEq, List.cons.injEq] at heq
    obtain ⟨-, h2, h3⟩ := heq
    subst h2; subst h3; rfl
  · rename_i h4 h3 h2 h1 heq
    rw [List.cons.injEq] at heq
    exact (h1 c rest heq.1.symm heq.2.symm).elim

/-- C2 (amended): the separator escape decoder decodes `\t` to tab, `\n` to
newline and `\xHH` (backslash, `x`, two further characters handed to base-16
`std::stoi`) to the byte with that value, consuming four source characters;
every other backslash sequence - including a backslash with insufficient
trailing characters - is copied through literally.  It never raises an error
*except* in one case the original claim misses: when an `\x` escape has two
trailing characters on which base-16 `std::stoi` finds no digit, the
`invalid_argument` exception propagates (seventh conjunct; `zeek_C2_cex`
gives the concrete counterexample `"\xZZ"`).  `decode("ab") = "ab"` and
`decode("\q") = "\q"` hold as stated. -/
theorem zeek_C2_amended :
    parseSeparator "ab".data = Except.ok "ab".data ∧
    parseSeparator "\\q".data = Except.ok "\\q".data ∧
    parseSeparator "\\t".data = Except.ok "\t".data ∧
    parseSeparator "\\n".data = Except.ok "\n".data ∧
    parseSeparator "\\x09".data = Except.ok "\t".data ∧
    parseSeparator "\\x4".data = Except.ok "\\x4".data ∧
    (∀ (h1 h2 : Char) (v : Int) (rest : List Char), stoi16 [h1, h2] = some v →
      parseSeparator ('\\' :: 'x' :: h1 :: h2 :: rest) =
        (parseSeparator rest).map (fun r => byteOfStoi v :: r)) ∧
    (∀ (h1 h2 : Char) (rest : List Char), stoi16 [h1, h2] = none →
      parseSeparator ('\\' :: 'x' :: h1 :: h2 :: rest) = Except.error ()) ∧
    (∀ (c : Char) (rest : List Char), c ≠ 'x' → c ≠ 't' → c ≠ 'n' →
      parseSeparator ('\\' :: c :: rest) =
        (parseSeparator (c :: rest)).map (fun r => '\\' :: r)) := by
  refine ⟨rfl, rfl, rfl, rfl, rfl, rfl, ?_, ?_, parseSeparator_literal⟩
  · intro h1 h2 v rest hs
    simp [parseSeparator, hs]
  · intro h1 h2 rest hs
    simp [parseSeparator, hs]

/-- Witness for C2's amended hex conjunct: `\x41` decodes to the byte 0x41
(`'A'`) followed by the decoding of the remainder. -/
theorem zeek_C2_witness :
    parseSeparator ('\\' :: 'x' :: '4' :: '1' :: []) =
      (parseSeparator []).map (fun r => byteOfStoi 65 :: r) :=
  zeek_C2_amended.2.2.2.2.2.2.1 '4' '1' 65 [] (by decide)

/-- C4 (amended): `ReadLine` treats `\n` as the line terminator and strips
*every* `\r` character from the line content (not only one preceding the
terminator), leaving all other characters intact; a final unterminated
segment at end-of-stream is still returned as a line exactly when something
remains of it after `\r`-stripping (in particular, a trailing run of only
`\r`s yields end-of-stream instead of an empty line). -/
theorem zeek_C4_amended (s : List Char) :
    readLine s =
      if ('\n' ∈ s) ∨
          (s.takeWhile (fun c => c != '\n')).filter (fun c => c != '\r') ≠ [] then
        some ((s.takeWhile (fun c => c != '\n')).filter (fun c => c != '\r'),
              (s.dropWhile (fun c => c != '\n')).drop 1)
      else none := by
  have h := readLineGo_eq s []
  simpa [readLine] using h

/-- C5 (amended): apart from the escape-decoding failure propagated out of
`ParseSeparator` (the `std::stoi` `invalid_argument` exhibited by
`zeek_C5_cex`), `ParseHeader` fails if and only if one of the three
post-conditions is violated, each surfaced as its own distinct named
failure: given that the directive loop itself completed with header `h`,
the parse fails with the missing-fields failure iff `h.fields` is empty,
with the missing-types failure iff the fields are present but `h.types` is
empty, and with the count-mismatch failure iff both are present with
differing lengths; and every header it returns satisfies
`|fields| = |types| ≥ 1`. -/
theorem zeek_C5_amended (s : List Char) (h : ZeekHeader) (cnt : Nat) (rest : List Char)
    (hraw : parseHeaderRaw s = Except.ok (h, cnt, rest)) :
    (parseHeader s = Except.error ZeekError.missingFields ↔ h.fields = []) ∧
    (parseHeader s = Except.error ZeekError.missingTypes ↔
      (h.fields ≠ [] ∧ h.types = [])) ∧
    (parseHeader s = Except.error ZeekError.countMismatch ↔
      (h.fields ≠ [] ∧ h.types ≠ [] ∧ h.fields.length ≠ h.types.length)) ∧
    (∀ h2, parseHeader s = Except.ok h2 →
      h2.fields.length = h2.types.length ∧ 1 ≤ h2.fields.length) := by
  simp only [parseHeader, hraw]
  split_ifs with hf ht hc
  · simp_all
  · simp_all
  · simp_all
  · constructor
    · simp_all
    constructor
    · simp_all
    constructor
    · simp_all
    · intro h2 hok
      have he : { h with header_line_count := (cnt + (2 ^ 64 - 1)) % 2 ^ 64 } = h2 := by
        injection hok
      rw [← he]
      simp only [not_not] at hc
      refine ⟨hc, ?_⟩
      cases hfe : h.fields with
      | nil => exact absurd hfe hf
      | cons a l => simp [hfe]

/-- Witness for C5's amended statement on the stream `"x"`, whose directive
loop completes immediately (one line read, no directives): the parse fails
with precisely the missing-fields failure. -/
theorem zeek_C5_witness :
    (parseHeader "x".data = Except.error ZeekError.missingFields ↔
      ({} : ZeekHeader).fields = []) ∧
    (parseHeader "x".data = Except.error ZeekError.missingTypes ↔
      (({} : ZeekHeader).fields ≠ [] ∧ ({} : ZeekHeader).types = [])) ∧
    (parseHeader "x".data = Except.error ZeekError.countMismatch ↔
      (({} : ZeekHeader).fields ≠ [] ∧ ({} : ZeekHeader).types ≠ [] ∧
        ({} : ZeekHeader).fields.length ≠ ({} : ZeekHeader).types.length)) ∧
    (∀ h2, parseHeader "x".data = Except.ok h2 →
      h2.fields.length = h2.types.length ∧ 1 ≤ h2.fields.length) :=
  zeek_C5_amended "x".data {} 1 [] rfl

end ZeekDuck
